import Mathlib

/-!
Verification development for the sapphirus guild-replication tool
(src/main.py).  The Python source is shallowly embedded: every API
interaction is represented by an explicit outcome argument (an oracle
describing what the remote service answered), mutable object state is
threaded explicitly, and dynamically typed JSON scalars are modelled by
the `PyVal` type below.  Wall-clock time (RateLimiter) is modelled by
rational-valued instants; datetime timestamps are passed in as opaque
strings.  JSON arrays/objects appearing where the program expects a
scalar are abstracted by `PyVal.other` (tagged by identity, truthy like
ordinary Python objects); the program never stores containers as dict
keys in practice.
-/

/-- Abstract handle for an object that lives on the target guild
(a role, channel, category or emoji returned by a creation call). -/
abbrev Handle := Nat

/-- Dynamically typed scalar values as they appear in the scraped JSON
and in the Python code: None, bools, ints, floats (as rationals),
strings, and a catch-all for non-scalar objects (tag abstracts object
identity). -/
inductive PyVal where
  | none
  | bool (b : Bool)
  | int (n : Int)
  | float (q : Rat)
  | str (s : String)
  | other (tag : Nat)
deriving DecidableEq

/-- Python truthiness of a `PyVal` (used by conditions such as
`if parent_id:` and `if icon_hash:` in the source). Non-scalar objects
are treated as truthy; the empty-container edge case is outside the
model. -/
def pyTruthy : PyVal → Bool
  | .none => false
  | .bool b => b
  | .int n => n != 0
  | .float q => q != 0
  | .str s => s != ""
  | .other _ => true

/-- Numeric view of a `PyVal`: Python compares bools, ints and floats
by numeric value (`1 == True == 1.0`). -/
def pyNum : PyVal → Option Rat
  | .bool b => some (if b then 1 else 0)
  | .int n => some (n : Rat)
  | .float q => some q
  | _ => Option.none

/-- Python `==` on the modelled scalars: numeric cross-type equality,
structural equality otherwise, `other` by identity tag. -/
def pyEq (a b : PyVal) : Bool :=
  match pyNum a, pyNum b with
  | some x, some y => x == y
  | some _, Option.none => false
  | Option.none, some _ => false
  | Option.none, Option.none =>
    match a, b with
    | .none, .none => true
    | .str s, .str t => s == t
    | .other i, .other j => i == j
    | _, _ => false

theorem pyEq_refl (a : PyVal) : pyEq a a = true := by
  cases a <;> simp [pyEq, pyNum]

theorem pyEq_symm {a b : PyVal} (h : pyEq a b = true) : pyEq b a = true := by
  cases a <;> cases b <;> simp_all [pyEq, pyNum]

theorem pyEq_trans {a b c : PyVal} (h1 : pyEq a b = true)
    (h2 : pyEq b c = true) : pyEq a c = true := by
  cases a <;> cases b <;> cases c <;> simp_all [pyEq, pyNum]

/-- Truncation of a rational toward zero, as Python `int(float)` does. -/
def ratTrunc (q : Rat) : Int :=
  if q < 0 then -⌊-q⌋ else ⌊q⌋

/-- Model of Python `int(s)` on strings: optional surrounding spaces,
an optional sign, then a nonempty run of decimal digits.  (Underscore
separators and exotic whitespace accepted by CPython are outside the
model; the claims do not depend on the exact accepted language.)
Returns the parsed integer, or `none` when `int(s)` raises. -/
def digitsVal (cs : List Char) : Option Nat :=
  cs.foldl
    (fun acc c =>
      match acc with
      | Option.none => Option.none
      | some n => if c.isDigit then some (n * 10 + (c.toNat - 48)) else Option.none)
    (some 0)

def pyIntCore (cs : List Char) : Option Int :=
  match cs with
  | [] => Option.none
  | '+' :: rest => if rest.isEmpty then Option.none else (digitsVal rest).map (fun n => (n : Int))
  | '-' :: rest => if rest.isEmpty then Option.none else (digitsVal rest).map (fun n => -(n : Int))
  | _ => (digitsVal cs).map (fun n => (n : Int))

def stripSpaces (cs : List Char) : List Char :=
  ((cs.dropWhile Char.isWhitespace).reverse.dropWhile Char.isWhitespace).reverse

def pyIntOfString (s : String) : Option Int :=
  pyIntCore (stripSpaces s.toList)

/-- Translation of `Clone.safe_int` (src/main.py lines 151-163) over
the finite-float fragment of Python values (`PyVal.float` carries a
rational, so non-finite floats are not representable here).  The
Python checks run in order: `None`, `isinstance(int)` (which booleans
satisfy), `isinstance(str)` with a bare `except` around `int(value)`,
`isinstance(float)`, and a final fallthrough returning the default.
On this fragment the function never raises; the float branch's
unguarded `int(value)` (line 162) raises on the non-finite floats
`nan`, `inf` and `-inf`, which `safe_int_checked` below models over
the full float domain.  `safe_int_agrees_checked` in `safe_int_spec`
shows this function is exactly the restriction of the checked model to
the finite fragment, the only values the pipeline's JSON-decoded call
sites supply. -/
def safe_int (value : PyVal) (default : Int) : Int :=
  match value with
  | .none => default
  | .bool b => if b then 1 else 0
  | .int n => n
  | .str s => (pyIntOfString s).getD default
  | .float q => ratTrunc q
  | .other _ => default

/-- Python float payloads over the full domain: a finite value (as a
rational) or one of the non-finite values `float("nan")`,
`float("inf")`, `float("-inf")`. -/
inductive PyFloat where
  | finite (q : Rat)
  | nan
  | inf
  | negInf
deriving DecidableEq

/-- Python values as `safe_int` can receive them, with the float case
carrying the full float domain including non-finite values. -/
inductive PyValF where
  | none
  | bool (b : Bool)
  | int (n : Int)
  | float (x : PyFloat)
  | str (s : String)
  | other (tag : Nat)
deriving DecidableEq

/-- The exceptions `int(value)` raises on a non-finite float:
`int(float("nan"))` raises ValueError, `int(float("inf"))` and
`int(float("-inf"))` raise OverflowError. -/
inductive PyExn where
  | valueError
  | overflowError
deriving DecidableEq

/-- Translation of `Clone.safe_int` (src/main.py lines 151-163) over
the full float domain, with the raising path explicit: the float
branch is a bare `return int(value)` with no handler (only the string
branch sits inside a `try`), so a non-finite float makes the function
raise instead of returning an integer. -/
def safe_int_checked (value : PyValF) (default : Int) : Except PyExn Int :=
  match value with
  | .none => .ok default
  | .bool b => .ok (if b then 1 else 0)
  | .int n => .ok n
  | .str s => .ok ((pyIntOfString s).getD default)
  | .float (.finite q) => .ok (ratTrunc q)
  | .float .nan => .error .valueError
  | .float .inf => .error .overflowError
  | .float .negInf => .error .overflowError
  | .other _ => .ok default

/-- Embedding of the finite-fragment scalar model into the full-float
value domain. -/
def PyVal.toF : PyVal → PyValF
  | .none => .none
  | .bool b => .bool b
  | .int n => .int n
  | .float q => .float (.finite q)
  | .str s => .str s
  | .other t => .other t

/-- Python dict lookup `d.get(k)` over an insertion-ordered association
list keyed by `PyVal`s, using Python equality: the first key equal to
`k` wins. -/
def dictGet (d : List (PyVal × Handle)) (k : PyVal) : Option Handle :=
  match d with
  | [] => Option.none
  | (k', v) :: rest => if pyEq k' k then some v else dictGet rest k

/-- Python dict assignment `d[k] = v`: replace the value of the first
equal key (keeping the stored key object), else append. -/
def dictSet (d : List (PyVal × Handle)) (k : PyVal) (v : Handle) :
    List (PyVal × Handle) :=
  match d with
  | [] => [(k, v)]
  | (k', v') :: rest =>
    if pyEq k' k then (k', v) :: rest else (k', v') :: dictSet rest k v

theorem dictGet_dictSet (d : List (PyVal × Handle)) (k q : PyVal) (v : Handle) :
    dictGet (dictSet d k v) q =
      if pyEq q k then some v else dictGet d q := by
  induction d with
  | nil =>
    by_cases h : pyEq q k = true
    · simp [dictSet, dictGet, pyEq_symm h, h]
    · simp only [dictSet, dictGet]
      have h' : pyEq k q = false := by
        cases hkq : pyEq k q
        · rfl
        · exact absurd (pyEq_symm hkq) (by simp [h])
      simp [h', h]
  | cons p rest ih =>
    obtain ⟨k', v'⟩ := p
    by_cases h1 : pyEq k' k = true
    · -- the stored key k' matches the assigned key k: value replaced in place
      by_cases h2 : pyEq k' q = true
      · have : pyEq q k = true := pyEq_trans (pyEq_symm h2) h1
        simp [dictSet, dictGet, h1, h2, this]
      · have : pyEq q k = false := by
          cases hqk : pyEq q k
          · rfl
          · exact absurd (pyEq_trans h1 (pyEq_symm hqk)) (by simp [h2])
        simp [dictSet, dictGet, h1, h2, this]
    · by_cases h2 : pyEq k' q = true
      · have : pyEq q k = false := by
          cases hqk : pyEq q k
          · rfl
          · exact absurd (pyEq_trans h2 hqk) (by simp [h1])
        simp [dictSet, dictGet, h1, h2, this]
      · simp [dictSet, dictGet, h1, h2, ih]

theorem dictGet_isSome_dictSet (d : List (PyVal × Handle)) (k q : PyVal)
    (v : Handle) :
    (dictGet (dictSet d k v) q).isSome =
      (pyEq q k || (dictGet d q).isSome) := by
  rw [dictGet_dictSet]
  by_cases h : pyEq q k = true <;> simp [h]

/-- C9 counterexample: the claim says `safe_int` never raises for any
Python value, but its float branch (src/main.py lines 161-162) is
`return int(value)` with no handler — only the string branch has a
`try` — so `safe_int(float("nan"))` raises ValueError and
`safe_int(float("inf"))` raises OverflowError instead of returning an
integer. -/
theorem safe_int_raises_counterexample :
    safe_int_checked (PyValF.float PyFloat.nan) 0 =
      .error PyExn.valueError ∧
    safe_int_checked (PyValF.float PyFloat.inf) 0 =
      .error PyExn.overflowError :=
  ⟨rfl, rfl⟩

/-- C9 (amended): `Clone.safe_int` returns an integer without raising
for every Python value EXCEPT non-finite floats: `None` and values
that are not int, str or float return the given default, ints are
returned unchanged, strings return their parsed integer when `int(s)`
succeeds and the default otherwise (the bare `except` guards only the
string branch), and finite floats are truncated toward zero (the
result is within distance 1 of the float, on the zero side); but a
non-finite float reaches the unguarded `int(value)` on line 162 and
raises — ValueError for `nan`, OverflowError for `inf` and `-inf`.
The last conjunct shows the finite-fragment `safe_int` used by the
rest of the development is exactly the restriction of this model to
the values on which it cannot raise. -/
theorem safe_int_spec (d : Int) :
    safe_int_checked PyValF.none d = .ok d ∧
    (∀ t, safe_int_checked (PyValF.other t) d = .ok d) ∧
    (∀ n, safe_int_checked (PyValF.int n) d = .ok n) ∧
    (∀ s n, pyIntOfString s = some n →
      safe_int_checked (PyValF.str s) d = .ok n) ∧
    (∀ s, pyIntOfString s = Option.none →
      safe_int_checked (PyValF.str s) d = .ok d) ∧
    (∀ q : Rat, 0 ≤ q →
      (safe_int_checked (PyValF.float (PyFloat.finite q)) d =
        .ok (ratTrunc q) ∧
        (ratTrunc q : Rat) ≤ q ∧ q - 1 < (ratTrunc q : Rat))) ∧
    (∀ q : Rat, q < 0 →
      (safe_int_checked (PyValF.float (PyFloat.finite q)) d =
        .ok (ratTrunc q) ∧
        q ≤ (ratTrunc q : Rat) ∧ (ratTrunc q : Rat) < q + 1)) ∧
    (safe_int_checked (PyValF.float PyFloat.nan) d =
      .error PyExn.valueError) ∧
    (safe_int_checked (PyValF.float PyFloat.inf) d =
      .error PyExn.overflowError) ∧
    (safe_int_checked (PyValF.float PyFloat.negInf) d =
      .error PyExn.overflowError) ∧
    (∀ v : PyVal, safe_int_checked (PyVal.toF v) d = .ok (safe_int v d)) := by
  refine ⟨rfl, fun t => rfl, fun n => rfl, ?_, ?_, ?_, ?_, rfl, rfl, rfl, ?_⟩
  · intro s n h; simp [safe_int_checked, h]
  · intro s h; simp [safe_int_checked, h]
  · intro q hq
    have h0 : ¬ q < 0 := not_lt.mpr hq
    refine ⟨rfl, ?_, ?_⟩
    · rw [ratTrunc, if_neg h0]
      exact Int.floor_le q
    · rw [ratTrunc, if_neg h0]
      linarith [Int.lt_floor_add_one q]
  · intro q hq
    refine ⟨rfl, ?_, ?_⟩
    · rw [ratTrunc, if_pos hq]
      push_cast
      linarith [Int.floor_le (-q)]
    · rw [ratTrunc, if_pos hq]
      push_cast
      linarith [Int.lt_floor_add_one (-q)]
  · intro v
    cases v <;> rfl

theorem safe_int_spec_witness :
    pyIntOfString "42" = some 42 ∧
    safe_int_checked (PyValF.str "42") 7 = .ok 42 :=
  ⟨by decide, (safe_int_spec 7).2.2.2.1 "42" 42 (by decide)⟩

/-- The fixed minimum interval `self.delay = 0.6` of `RateLimiter`
(src/main.py line 39). -/
def rl_delay : Rat := 3 / 5

/-- Translation of `RateLimiter.wait` (src/main.py lines 41-46) under
an idealized clock: `time.time()` at entry reads `now`, `asyncio.sleep`
sleeps exactly the requested duration, and the trailing `time.time()`
reads the instant `wait` returns.  The result is the return instant,
which the method also stores into `self.last`. -/
def RateLimiter.wait (last now : Rat) : Rat :=
  let elapsed := now - last
  if elapsed < rl_delay then now + (rl_delay - elapsed) else now

/-- Return instants of consecutive `wait()` calls whose entry instants
are `ts`, starting from stored state `self.last = last`. -/
def waitReturns (last : Rat) : List Rat → List Rat
  | [] => []
  | t :: ts => RateLimiter.wait last t :: waitReturns (RateLimiter.wait last t) ts

theorem wait_ge (last now : Rat) : last + rl_delay ≤ RateLimiter.wait last now := by
  simp only [RateLimiter.wait]
  by_cases h : now - last < rl_delay
  · rw [if_pos h]; linarith
  · rw [if_neg h]; linarith [not_lt.mp h]

theorem length_waitReturns (last : Rat) (ts : List Rat) :
    (waitReturns last ts).length = ts.length := by
  induction ts generalizing last with
  | nil => rfl
  | cons t ts ih => simp [waitReturns, ih]

theorem waitReturns_step (ts : List Rat) :
    ∀ (last : Rat) (i : Nat), i + 1 < (waitReturns last ts).length →
      (waitReturns last ts).getD i 0 + rl_delay ≤
        (waitReturns last ts).getD (i + 1) 0 := by
  induction ts with
  | nil => intro last i h; simp [waitReturns] at h
  | cons t ts ih =>
    intro last i h
    cases i with
    | zero =>
      simp only [waitReturns, List.length_cons, length_waitReturns] at h
      cases ts with
      | nil => simp at h
      | cons t' ts' =>
        simp only [waitReturns, List.getD_cons_zero, List.getD_cons_succ]
        exact wait_ge (RateLimiter.wait last t) t'
    | succ i =>
      simp only [waitReturns, List.length_cons] at h
      simp only [waitReturns, List.getD_cons_succ]
      exact ih (RateLimiter.wait last t) i (by omega)

/-- C8: pacing of consecutive `RateLimiter.wait()` calls.  The list of
return instants has one entry per call, and any later return instant is
at least `(j - i)` times the minimum interval (0.6 s) after any earlier
one; in particular, for `N` consecutive calls the wall time from the
first return to the last is at least `(N - 1) * 0.6`.  Each `wait()`
returns only after at least the minimum interval has elapsed since the
previous call returned (`self.last` is stamped after the sleep). -/
theorem rate_limiter_spacing (last : Rat) (ts : List Rat) :
    (waitReturns last ts).length = ts.length ∧
    ∀ i j : Nat, i ≤ j → j < ts.length →
      (waitReturns last ts).getD i 0 + ((j - i : Nat) : Rat) * rl_delay ≤
        (waitReturns last ts).getD j 0 := by
  refine ⟨length_waitReturns last ts, ?_⟩
  intro i j hij hj
  obtain ⟨k, rfl⟩ : ∃ k, j = i + k := ⟨j - i, by omega⟩
  induction k with
  | zero => simp
  | succ k ihk =>
    have hk : i + k < ts.length := by omega
    have step := waitReturns_step ts last (i + k)
      (by rw [length_waitReturns]; omega)
    have prev := ihk (by omega) (by omega)
    have hcast : ((i + (k + 1) - i : Nat) : Rat) = ((i + k - i : Nat) : Rat) + 1 := by
      push_cast [Nat.add_sub_cancel_left]
      ring
    rw [hcast]
    have : i + k + 1 = i + (k + 1) := by omega
    rw [this] at step
    linarith

theorem rate_limiter_spacing_witness :
    (waitReturns 0 [0, 0, 0]).getD 0 0 + ((2 - 0 : Nat) : Rat) * rl_delay ≤
      (waitReturns 0 [0, 0, 0]).getD 2 0 :=
  (rate_limiter_spacing 0 [0, 0, 0]).2 0 2 (by decide) (by decide)

/-- One HTTP response of the remote service to an attempted request on
the read path (`APIScraper.get`, src/main.py lines 67-83): status 200
with a decoded document (abstracted by a number), 429 with an optional
parsed `Retry-After` header, 403, 401, any other status, or a raised
network-level exception. -/
inductive HttpResp where
  | ok (doc : Nat)
  | rateLimited (retryAfter : Option Rat)
  | forbidden
  | unauthorized
  | other (status : Int)
  | exn (msg : String)
deriving DecidableEq

/-- Value returned by `APIScraper.get`: the decoded JSON on 200, or one
of the error dictionaries built by the except branches. -/
inductive GetResult where
  | json (doc : Nat)
  | errForbidden
  | errUnauthorized
  | errHttp (status : Int)
  | errExn (msg : String)
deriving DecidableEq

/-- Translation of `APIScraper.get`.  The argument lists the responses
the server gives to successive attempts of the same request.  A 429
sleeps `Retry-After` seconds (5 when the header is absent) and then
re-issues the request by calling `self.get(endpoint)` again — a
self-recursive call in the source.  The result collects the sleeps
performed and the final returned value; `none` means the supplied
response stream was exhausted while the function was still retrying
(so on an all-429 stream the call has not completed). -/
def APIScraper.get : List HttpResp → Option (List Rat × GetResult)
  | [] => Option.none
  | .ok d :: _ => some ([], .json d)
  | .rateLimited ra :: rest =>
    (APIScraper.get rest).map (fun p => ((ra.getD 5) :: p.1, p.2))
  | .forbidden :: _ => some ([], .errForbidden)
  | .unauthorized :: _ => some ([], .errUnauthorized)
  | .other s :: _ => some ([], .errHttp s)
  | .exn m :: _ => some ([], .errExn m)

theorem get_replicate_rateLimited (ra : Option Rat) :
    ∀ n : Nat,
      APIScraper.get (List.replicate n (HttpResp.rateLimited ra)) = Option.none := by
  intro n
  induction n with
  | zero => rfl
  | succ n ih => simp [List.replicate, APIScraper.get, ih]

theorem get_nonRateLimited (r : HttpResp) (rest : List HttpResp)
    (h : ∀ ra, r ≠ HttpResp.rateLimited ra) :
    ∃ w, APIScraper.get (r :: rest) = some ([], w) := by
  cases r with
  | ok d => exact ⟨.json d, rfl⟩
  | rateLimited ra => exact absurd rfl (h ra)
  | forbidden => exact ⟨.errForbidden, rfl⟩
  | unauthorized => exact ⟨.errUnauthorized, rfl⟩
  | other s => exact ⟨.errHttp s, rfl⟩
  | exn m => exact ⟨.errExn m, rfl⟩

/-- C3 counterexample: the claim asserts the 429 retries are bounded by
an explicit loop with a maximum retry count, so that the call completes
even under a sustained stream of 429 responses.  In the source the
retry is an unbounded self-recursion (`return await self.get(endpoint)`,
src/main.py line 75): no number of consecutive 429 responses ever lets
the call complete, refuting the claim on the concrete all-429 stream. -/
theorem get_unbounded_429_counterexample :
    ¬ ∃ n : Nat,
      (APIScraper.get
        (List.replicate n (HttpResp.rateLimited Option.none))).isSome := by
  rintro ⟨n, h⟩
  rw [get_replicate_rateLimited] at h
  simp at h

/-- C3 (amended): on each 429 the read path sleeps the server-supplied
`Retry-After` interval (5 seconds when unspecified) and re-issues the
same request exactly once per 429 received — but via unbounded
self-recursion with no maximum retry count, so under a sustained
stream of 429 responses the call never completes.  The third conjunct
shows the exactly-once accounting: after `k` 429 responses followed by
a non-429 response, the call returns that response's result having
slept exactly the `k` supplied intervals. -/
theorem get_retry_spec :
    (∀ (ra : Option Rat) (rest : List HttpResp),
      APIScraper.get (HttpResp.rateLimited ra :: rest) =
        (APIScraper.get rest).map (fun p => ((ra.getD 5) :: p.1, p.2))) ∧
    (∀ (n : Nat) (ra : Option Rat),
      APIScraper.get (List.replicate n (HttpResp.rateLimited ra)) =
        Option.none) ∧
    (∀ (ras : List (Option Rat)) (r : HttpResp) (rest : List HttpResp),
      (∀ ra, r ≠ HttpResp.rateLimited ra) →
      ∃ w, APIScraper.get (r :: rest) = some ([], w) ∧
        APIScraper.get (ras.map HttpResp.rateLimited ++ r :: rest) =
          some (ras.map (fun x => x.getD 5), w)) := by
  refine ⟨fun ra rest => rfl, fun n ra => get_replicate_rateLimited ra n, ?_⟩
  intro ras r rest h
  obtain ⟨w, hw⟩ := get_nonRateLimited r rest h
  refine ⟨w, hw, ?_⟩
  induction ras with
  | nil => simpa using hw
  | cons ra ras ih => simp [APIScraper.get, ih]

theorem get_retry_spec_witness :
    APIScraper.get
        [HttpResp.rateLimited (some 2), HttpResp.rateLimited Option.none,
          HttpResp.ok 3] =
      some ([2, 5], GetResult.json 3) := by
  obtain ⟨w, hw, hres⟩ :=
    get_retry_spec.2.2 [some 2, Option.none] (HttpResp.ok 3) []
      (fun ra h => by cases h)
  have hw' : w = GetResult.json 3 := by
    have h0 : APIScraper.get [HttpResp.ok 3] = some ([], GetResult.json 3) := rfl
    rw [h0] at hw
    have h1 := congrArg
      (fun o => (Option.map Prod.snd o).getD GetResult.errForbidden) hw
    simpa using h1.symm
  rw [hw'] at hres
  simpa using hres

/-- One entry of a channel's `permission_overwrites` JSON array, with
the raw fields `Clone.parse_permission_overwrites` reads via `.get`
(absent keys are `Option.none`; present-but-null keys are
`some PyVal.none`). -/
structure OWData where
  type : Option PyVal
  id : Option PyVal
  allow : Option PyVal
  deny : Option PyVal
deriving DecidableEq

/-- Lookup in the `overwrites_to` output dict, keyed by the target
role handle, valued by the (allow, deny) bitmask pair. -/
def owGet (d : List (Handle × Int × Int)) (k : Handle) : Option (Int × Int) :=
  match d with
  | [] => Option.none
  | (k', a, dn) :: rest => if k' = k then some (a, dn) else owGet rest k

/-- Assignment into the `overwrites_to` output dict. -/
def owSet (d : List (Handle × Int × Int)) (k : Handle) (v : Int × Int) :
    List (Handle × Int × Int) :=
  match d with
  | [] => [(k, v.1, v.2)]
  | (k', a, dn) :: rest =>
    if k' = k then (k', v.1, v.2) :: rest else (k', a, dn) :: owSet rest k v

theorem owGet_owSet (d : List (Handle × Int × Int)) (k q : Handle)
    (v : Int × Int) :
    owGet (owSet d k v) q = if q = k then some v else owGet d q := by
  induction d with
  | nil =>
    by_cases h : q = k
    · simp [owSet, owGet, h]
    · have h' : ¬ k = q := fun hh => h hh.symm
      simp [owSet, owGet, h, h']
  | cons p rest ih =>
    obtain ⟨k', a, dn⟩ := p
    by_cases h1 : k' = k
    · subst h1
      by_cases h2 : q = k'
      · subst h2; simp [owSet, owGet]
      · have h2' : ¬ k' = q := fun hh => h2 hh.symm
        simp [owSet, owGet, h2, h2']
    · by_cases h2 : k' = q
      · subst h2
        simp [owSet, owGet, h1]
      · simp [owSet, owGet, h1, h2, ih]

/-- Resolution of a group-kind overwrite: look the converted source id
up in `self.bot.role_map` (an int key against the stored raw JSON
keys, compared with Python equality); when not found and the id equals
`self.bot.source_id`, fall back to the target guild's default role
(`guild_to.default_role`). -/
def resolveOverwriteTarget (role_map : List (PyVal × Handle))
    (bot_source_id : Option Int) (default_role : Handle) (sid : Int) :
    Option Handle :=
  match dictGet role_map (PyVal.int sid) with
  | some r => some r
  | Option.none =>
    if bot_source_id = some sid then some default_role else Option.none

def parseOWLoop (role_map : List (PyVal × Handle)) (bot_source_id : Option Int)
    (default_role : Handle) (acc : List (Handle × Int × Int)) :
    List OWData → List (Handle × Int × Int)
  | [] => acc
  | ow :: rest =>
    let owType := ow.type.getD (PyVal.int 0)
    let source_id := safe_int (ow.id.getD PyVal.none) 0
    let allow_val := safe_int (ow.allow.getD PyVal.none) 0
    let deny_val := safe_int (ow.deny.getD PyVal.none) 0
    if pyEq owType (PyVal.int 0) then
      match resolveOverwriteTarget role_map bot_source_id default_role source_id with
      | some t =>
        parseOWLoop role_map bot_source_id default_role
          (owSet acc t (allow_val, deny_val)) rest
      | Option.none => parseOWLoop role_map bot_source_id default_role acc rest
    else parseOWLoop role_map bot_source_id default_role acc rest

/-- Translation of `Clone.parse_permission_overwrites` (src/main.py
lines 165-185): builds the `overwrites_to` dict from the raw overwrite
list, emitting an entry only for group-kind entries (`type == 0`, the
default when absent) whose id resolves to a target role handle. -/
def parse_permission_overwrites (role_map : List (PyVal × Handle))
    (bot_source_id : Option Int) (default_role : Handle)
    (overwrites_data : List OWData) : List (Handle × Int × Int) :=
  parseOWLoop role_map bot_source_id default_role [] overwrites_data

theorem parseOWLoop_isSome (role_map : List (PyVal × Handle))
    (bot_source_id : Option Int) (default_role : Handle) (h : Handle) :
    ∀ (ows : List OWData) (acc : List (Handle × Int × Int)),
      (owGet (parseOWLoop role_map bot_source_id default_role acc ows) h).isSome
        = true ↔
      ((owGet acc h).isSome = true ∨
        ∃ ow ∈ ows,
          pyEq (ow.type.getD (PyVal.int 0)) (PyVal.int 0) = true ∧
          resolveOverwriteTarget role_map bot_source_id default_role
            (safe_int (ow.id.getD PyVal.none) 0) = some h) := by
  intro ows
  induction ows with
  | nil => intro acc; simp [parseOWLoop]
  | cons ow rest ih =>
    intro acc
    simp only [parseOWLoop]
    by_cases ht : pyEq (ow.type.getD (PyVal.int 0)) (PyVal.int 0) = true
    · rw [if_pos ht]
      cases hres : resolveOverwriteTarget role_map bot_source_id default_role
          (safe_int (ow.id.getD PyVal.none) 0) with
      | none =>
        rw [ih acc]
        constructor
        · rintro (hacc | hex)
          · exact Or.inl hacc
          · exact Or.inr (by
              obtain ⟨o, ho, hto⟩ := hex
              exact ⟨o, List.mem_cons_of_mem _ ho, hto⟩)
        · rintro (hacc | ⟨o, ho, hto, hro⟩)
          · exact Or.inl hacc
          · rcases List.mem_cons.mp ho with rfl | ho'
            · rw [hres] at hro; cases hro
            · exact Or.inr ⟨o, ho', hto, hro⟩
      | some t =>
        rw [ih]
        rw [owGet_owSet]
        by_cases hht : h = t
        · subst hht
          rw [if_pos rfl]
          simp only [Option.isSome_some]
          constructor
          · intro _
            exact Or.inr ⟨ow, List.mem_cons_self _ _, ht, hres⟩
          · intro _
            exact Or.inl trivial
        · rw [if_neg hht]
          constructor
          · rintro (hacc | ⟨o, ho, hto, hro⟩)
            · exact Or.inl hacc
            · exact Or.inr ⟨o, List.mem_cons_of_mem _ ho, hto, hro⟩
          · rintro (hacc | ⟨o, ho, hto, hro⟩)
            · exact Or.inl hacc
            · rcases List.mem_cons.mp ho with rfl | ho'
              · rw [hres] at hro
                exact absurd (Option.some_inj.mp hro).symm hht
              · exact Or.inr ⟨o, ho', hto, hro⟩
    · rw [if_neg ht, ih acc]
      constructor
      · rintro (hacc | ⟨o, ho, hto, hro⟩)
        · exact Or.inl hacc
        · exact Or.inr ⟨o, List.mem_cons_of_mem _ ho, hto, hro⟩
      · rintro (hacc | ⟨o, ho, hto, hro⟩)
        · exact Or.inl hacc
        · rcases List.mem_cons.mp ho with rfl | ho'
          · exact absurd hto ht
          · exact Or.inr ⟨o, ho', hto, hro⟩

/-- C5: the overwrite translator emits an output entry for a target
role handle exactly when some input overwrite is of group kind
(`type == 0`, the default when the key is absent) and its converted
source id resolves to that handle — found in the group remapper, or,
when absent there and equal to the recorded source (default-group) id,
substituted by the target's default role.  Member-kind entries
(`type == 1`) and group entries that resolve to no handle contribute
nothing. -/
theorem parse_permission_overwrites_spec (role_map : List (PyVal × Handle))
    (bot_source_id : Option Int) (default_role : Handle)
    (overwrites_data : List OWData) (h : Handle) :
    (owGet (parse_permission_overwrites role_map bot_source_id default_role
        overwrites_data) h).isSome = true ↔
      ∃ ow ∈ overwrites_data,
        pyEq (ow.type.getD (PyVal.int 0)) (PyVal.int 0) = true ∧
        resolveOverwriteTarget role_map bot_source_id default_role
          (safe_int (ow.id.getD PyVal.none) 0) = some h := by
  rw [parse_permission_overwrites,
    parseOWLoop_isSome role_map bot_source_id default_role h overwrites_data []]
  simp [owGet]

theorem parse_permission_overwrites_spec_witness :
    (owGet (parse_permission_overwrites [(PyVal.int 5, 9)] (some 8) 4
        [⟨some (PyVal.int 0), some (PyVal.int 5), some (PyVal.int 3),
          some (PyVal.int 1)⟩,
          ⟨some (PyVal.int 1), some (PyVal.int 6), Option.none, Option.none⟩])
      9).isSome = true := by
  refine (parse_permission_overwrites_spec [(PyVal.int 5, 9)] (some 8) 4
      [⟨some (PyVal.int 0), some (PyVal.int 5), some (PyVal.int 3),
        some (PyVal.int 1)⟩,
        ⟨some (PyVal.int 1), some (PyVal.int 6), Option.none, Option.none⟩]
      9).mpr
    ⟨⟨some (PyVal.int 0), some (PyVal.int 5), some (PyVal.int 3),
      some (PyVal.int 1)⟩, ?_, ?_, ?_⟩ <;> decide

/-- Raw fields of one scraped role dict that influence control flow or
state (`id`, `name`, `position`); remaining fields (`permissions`,
`color`, `hoist`, `mentionable`) are converted and passed through as
request payload without affecting control flow, and are abstracted
away. -/
structure RoleData where
  id : Option PyVal
  name : Option PyVal
  position : Option PyVal
deriving DecidableEq

/-- Raw fields of one scraped channel dict used by the pipeline; the
kind-specific payload fields (`topic`, `rate_limit_per_user`, `nsfw`,
`bitrate`, `user_limit`) are passed through to the creation call
without affecting control flow and are abstracted away. -/
structure ChanData where
  id : Option PyVal
  type : Option PyVal
  name : Option PyVal
  position : Option PyVal
  parent_id : Option PyVal
  permission_overwrites : Option (List OWData)
deriving DecidableEq

/-- Raw fields of one scraped emoji dict used by the pipeline. -/
structure EmojiData where
  id : Option PyVal
  name : Option PyVal
  animated : Option PyVal
deriving DecidableEq

/-- Raw fields of the scraped guild metadata dict used by the
pipeline (`name`, `icon`, `id`). -/
structure GuildData where
  id : Option PyVal
  name : Option PyVal
  icon : Option PyVal
deriving DecidableEq

/-- Result of the guild-metadata read in `APIScraper.scrape_server`:
the decoded guild document, a literal JSON `null` body, or one of the
error dictionaries produced by `APIScraper.get` (carrying the reason
string and, when present, the HTTP status). -/
inductive GuildFetch where
  | doc (g : GuildData)
  | nullv
  | err (reason : String) (status : Option Int)
deriving DecidableEq

/-- Result of one of the three list reads (channels, roles, emojis) in
`APIScraper.scrape_server`: a decoded JSON array, a JSON `null`, some
other non-list JSON document, or an error dictionary from
`APIScraper.get`. -/
inductive SubFetch (α : Type) where
  | list (xs : List α)
  | nullv
  | nonList
  | err (reason : String) (status : Option Int)
deriving DecidableEq

/-- Combined effect of `if xs is None: xs = []` followed by
`xs if isinstance(xs, list) else []` in `scrape_server`: anything that
is not a decoded list — including the error dictionaries — becomes the
empty list. -/
def subFetchToList {α : Type} : SubFetch α → List α
  | .list xs => xs
  | _ => []

/-- The snapshot dictionary built by `APIScraper.scrape_server`
(src/main.py lines 100-107). -/
structure Snapshot where
  id : Int
  timestamp : String
  guild : GuildFetch
  channels : List ChanData
  roles : List RoleData
  emojis : List EmojiData
deriving DecidableEq

/-- Translation of `APIScraper.scrape_server` (src/main.py lines
85-107).  The four arguments after the timestamp are the results of
the four reads, all of which are attempted unconditionally; the
`datetime.now().isoformat()` timestamp is passed in as an opaque
string. -/
def APIScraper.scrape_server (guild_id : Int) (timestamp : String)
    (guild : GuildFetch) (channels : SubFetch ChanData)
    (roles : SubFetch RoleData) (emojis : SubFetch EmojiData) : Snapshot :=
  { id := guild_id
    timestamp := timestamp
    guild :=
      match guild with
      | .nullv => .err "no response" Option.none
      | g => g
    channels := subFetchToList channels
    roles := subFetchToList roles
    emojis := subFetchToList emojis }

/-- C4 counterexample: the claim asserts that a failing sub-resource
read is defaulted to an empty list "with the failure reason retained
alongside the partial result".  In the source the error dictionary
returned by `get` for the channel list is discarded entirely
(`channels if isinstance(channels, list) else []`): two captures whose
channel reads fail for different reasons produce identical snapshots,
so no component of the result retains the reason. -/
theorem scrape_reason_discarded_counterexample :
    APIScraper.scrape_server 1 "t0"
        (GuildFetch.doc ⟨Option.none, some (PyVal.str "g"), Option.none⟩)
        (SubFetch.err "forbidden" (some 403)) SubFetch.nullv SubFetch.nullv =
      APIScraper.scrape_server 1 "t0"
        (GuildFetch.doc ⟨Option.none, some (PyVal.str "g"), Option.none⟩)
        (SubFetch.err "http 500" (some 500)) SubFetch.nullv SubFetch.nullv
    ∧ ("forbidden" : String) ≠ "http 500" :=
  ⟨rfl, by decide⟩

/-- C4 (amended): every snapshot capture attempts all four reads and
never fails as a whole (`scrape_server` is a total function of the
four results); each sub-resource list whose fetch fails — or whose
body is null or not a list — is defaulted to the empty list with the
failure reason discarded, and a guild-metadata failure is retained
verbatim as the explicit error field of the snapshot (a null guild
body becomes the "no response" error record). -/
theorem scrape_server_spec :
    (∀ gid ts g c r e,
      (APIScraper.scrape_server gid ts g c r e).channels = subFetchToList c ∧
      (APIScraper.scrape_server gid ts g c r e).roles = subFetchToList r ∧
      (APIScraper.scrape_server gid ts g c r e).emojis = subFetchToList e) ∧
    (∀ reason status, subFetchToList (α := ChanData) (.err reason status) = []) ∧
    (∀ gid ts g r1 s1 r2 s2 ro em,
      APIScraper.scrape_server gid ts g (SubFetch.err r1 s1) ro em =
        APIScraper.scrape_server gid ts g (SubFetch.err r2 s2) ro em) ∧
    (∀ gid ts reason status c r e,
      (APIScraper.scrape_server gid ts (GuildFetch.err reason status) c r e).guild
        = GuildFetch.err reason status) ∧
    (∀ gid ts c r e,
      (APIScraper.scrape_server gid ts GuildFetch.nullv c r e).guild
        = GuildFetch.err "no response" Option.none) ∧
    (∀ gid ts g c r e,
      (APIScraper.scrape_server gid ts (GuildFetch.doc g) c r e).guild
        = GuildFetch.doc g) := by
  refine ⟨fun gid ts g c r e => ⟨rfl, rfl, rfl⟩, fun reason status => rfl,
    fun gid ts g r1 s1 r2 s2 ro em => rfl, fun gid ts reason status c r e => rfl,
    fun gid ts c r e => rfl, fun gid ts g c r e => rfl⟩

/-- Exception classes distinguished by the `except` clauses of the
pipeline: `discord.Forbidden`, any other `discord.HTTPException`, and
every other exception class. -/
inductive Exn where
  | forbidden
  | http
  | other
deriving DecidableEq

/-- Whether an API call outcome is a success. -/
def exOk {α : Type} : Except Exn α → Bool
  | .ok _ => true
  | .error _ => false

/-- Mutating calls the pipeline can issue against the target guild,
with the arguments relevant to the claims.  `createChannel` carries the
raw source channel type driving the creation dispatch (0 text, 2
voice, 5 news via text plus a type edit, 13 stage, 15 forum, anything
else text), the name, the resolved parent category handle, the
translated overwrites and the requested position. -/
inductive MutCall where
  | editGuildName
  | editGuildIcon
  | deleteEmoji (name : String)
  | deleteChannel (name : String)
  | deleteRole (name : String)
  | editEveryonePerms
  | createRole (name : PyVal)
  | editRolePosition (h : Handle) (pos : Int)
  | createCategory (name : PyVal) (overwrites : List (Handle × Int × Int))
  | editCategoryPosition (h : Handle) (pos : Int)
  | createChannel (kind : Int) (name : PyVal) (parent : Option Handle)
      (overwrites : List (Handle × Int × Int)) (pos : Int)
  | editChannelTypeNews (h : Handle)
  | createEmoji (name : PyVal)
deriving DecidableEq

/-- Per-phase progress counters of the `Clone` object
(`self.completed`, `self.total`, `self.errors`), reset at the start of
each phase by `reset_stats`. -/
structure PhaseStats where
  completed : Nat
  total : Nat
  errors : Nat
deriving DecidableEq

/-- Stable insertion for the sort below: `x` is placed before the
first element whose key is not smaller, so elements with equal keys
keep their original relative order. -/
def insertByKey {α : Type} (key : α → Int) (x : α) : List α → List α
  | [] => [x]
  | y :: ys =>
    if key y < key x then y :: insertByKey key x ys else x :: y :: ys

/-- Stable sort by an integer key, the behaviour of Python
`sorted(xs, key=...)` (a stable sort is determined uniquely by the key,
so the exact algorithm is irrelevant). -/
def sortByKey {α : Type} (key : α → Int) : List α → List α
  | [] => []
  | x :: xs => insertByKey key x (sortByKey key xs)

theorem length_insertByKey {α : Type} (key : α → Int) (x : α) (l : List α) :
    (insertByKey key x l).length = l.length + 1 := by
  induction l with
  | nil => rfl
  | cons y ys ih =>
    simp only [insertByKey]
    by_cases h : key y < key x
    · simp [h, ih]
    · simp [h]

theorem length_sortByKey {α : Type} (key : α → Int) (l : List α) :
    (sortByKey key l).length = l.length := by
  induction l with
  | nil => rfl
  | cons x xs ih => simp [sortByKey, length_insertByKey, ih]

/-- Sort key for roles: `self.safe_int(r.get("position", 0))`
(src/main.py line 213). -/
def rolePosKey (r : RoleData) : Int :=
  safe_int ((r.position).getD (PyVal.int 0)) 0

/-- Sort key for channels and categories:
`self.safe_int(c.get("position"), 0)` (src/main.py lines 316, 355). -/
def chanPosKey (c : ChanData) : Int :=
  safe_int ((c.position).getD PyVal.none) 0

/-- The category work list of `Clone.categories_create`: channels with
`type == 4`, sorted ascending by position. -/
def catsOf (channels_data : List ChanData) : List ChanData :=
  sortByKey chanPosKey
    (channels_data.filter (fun c => pyEq ((c.type).getD PyVal.none) (PyVal.int 4)))

/-- The leaf work list of `Clone.channels_create`: channels with
`type != 4`, sorted ascending by position. -/
def chansOf (channels_data : List ChanData) : List ChanData :=
  sortByKey chanPosKey
    (channels_data.filter (fun c => !(pyEq ((c.type).getD PyVal.none) (PyVal.int 4))))

/-- The `category` argument computed for one leaf in
`Clone.channels_create` (src/main.py line 371):
`self.bot.cat_map.get(parent_id) if parent_id else None` — note the
Python truthiness test on `parent_id`. -/
def channelParentArg (cat_map : List (PyVal × Handle)) (c : ChanData) :
    Option Handle :=
  let parent_id := (c.parent_id).getD PyVal.none
  if pyTruthy parent_id then dictGet cat_map parent_id else Option.none

/-- Parent-category arguments of the channel-creation calls appearing
in a trace, in order. -/
def traceParents : List MutCall → List (Option Handle)
  | [] => []
  | MutCall.createChannel _ _ p _ _ :: rest => p :: traceParents rest
  | _ :: rest => traceParents rest

/-- Shared shape of the three wipe loops (`Clone.roles_delete` lines
187-206, `Clone.channels_delete` lines 292-311, `Clone.emojis_delete`
lines 463-485): one delete call per item; `except Forbidden` and
`except HTTPException` log and count the error and the loop continues
(`completed` advances after the handled branches); an exception of any
other class propagates out of the loop and aborts the phase.
`res i` is the outcome of the delete call for the i-th item; the
result is `(completed, errors, trace)`. -/
def delete_loop (mk : String → MutCall) (res : Nat → Except Exn Unit) :
    List String → Except Exn (Nat × Nat × List MutCall)
  | [] => .ok (0, 0, [])
  | n :: rest =>
    match res 0 with
    | .ok _ =>
      (delete_loop mk (fun i => res (i + 1)) rest).map
        (fun p => (p.1 + 1, p.2.1, mk n :: p.2.2))
    | .error .forbidden =>
      (delete_loop mk (fun i => res (i + 1)) rest).map
        (fun p => (p.1 + 1, p.2.1 + 1, mk n :: p.2.2))
    | .error .http =>
      (delete_loop mk (fun i => res (i + 1)) rest).map
        (fun p => (p.1 + 1, p.2.1 + 1, mk n :: p.2.2))
    | .error .other => .error .other

/-- Translation of `Clone.roles_delete`: deletes every target role
except the one named `@everyone`. -/
def roles_delete (target_role_names : List String)
    (res : Nat → Except Exn Unit) : Except Exn (PhaseStats × List MutCall) :=
  let roles := target_role_names.filter (fun n => n != "@everyone")
  (delete_loop MutCall.deleteRole res roles).map
    (fun p => (⟨p.1, roles.length, p.2.1⟩, p.2.2))

/-- Translation of `Clone.channels_delete`: deletes every target
channel. -/
def channels_delete (target_channel_names : List String)
    (res : Nat → Except Exn Unit) : Except Exn (PhaseStats × List MutCall) :=
  (delete_loop MutCall.deleteChannel res target_channel_names).map
    (fun p => (⟨p.1, target_channel_names.length, p.2.1⟩, p.2.2))

/-- Translation of `Clone.emojis_delete`: deletes every target emoji
(the early return on an empty list yields the same result). -/
def emojis_delete (target_emoji_names : List String)
    (res : Nat → Except Exn Unit) : Except Exn (PhaseStats × List MutCall) :=
  (delete_loop MutCall.deleteEmoji res target_emoji_names).map
    (fun p => (⟨p.1, target_emoji_names.length, p.2.1⟩, p.2.2))

/-- Loop body of `Clone.roles_create` (src/main.py lines 217-270) over
the position-sorted role list.  For the role named `@everyone` the
target's default role is edited in place (`except Exception` catches
any failure) and registered in `role_map` under the source id on
success; every other role issues a `create_role` call (with the
converted permission/colour/hoist/mentionable payload, abstracted) and
is registered under its source id on success; `except Forbidden`,
`except HTTPException` and `except Exception` catch every failure, so
this loop never aborts.  `res i` is the outcome of the single API call
for the i-th sorted item.  Result: (role_map, completed, errors,
trace). -/
def rolesCreateLoop (default_role : Handle) (res : Nat → Except Exn Handle) :
    List RoleData → List (PyVal × Handle) →
      List (PyVal × Handle) × Nat × Nat × List MutCall
  | [], rm => (rm, 0, 0, [])
  | r :: rest, rm =>
    let name := (r.name).getD (PyVal.str "unnamed")
    if pyEq name (PyVal.str "@everyone") then
      match res 0 with
      | .ok _ =>
        let rm' := dictSet rm ((r.id).getD PyVal.none) default_role
        let p := rolesCreateLoop default_role (fun i => res (i + 1)) rest rm'
        (p.1, p.2.1 + 1, p.2.2.1, MutCall.editEveryonePerms :: p.2.2.2)
      | .error _ =>
        let p := rolesCreateLoop default_role (fun i => res (i + 1)) rest rm
        (p.1, p.2.1 + 1, p.2.2.1 + 1, MutCall.editEveryonePerms :: p.2.2.2)
    else
      match res 0 with
      | .ok h =>
        let rm' := dictSet rm ((r.id).getD PyVal.none) h
        let p := rolesCreateLoop default_role (fun i => res (i + 1)) rest rm'
        (p.1, p.2.1 + 1, p.2.2.1, MutCall.createRole name :: p.2.2.2)
      | .error _ =>
        let p := rolesCreateLoop default_role (fun i => res (i + 1)) rest rm
        (p.1, p.2.1 + 1, p.2.2.1 + 1, MutCall.createRole name :: p.2.2.2)

/-- Translation of `Clone.reorder_roles` (src/main.py lines 276-290):
for every source role whose id is mapped and whose target is not the
default role, issue a best-effort position edit; every failure is
passed over (`except Exception: pass`), so only the trace is affected.
In this model the default role is the only target role named
`@everyone` (the creation loop routes that name to the in-place edit
instead of `create_role`), so `target_role.name == "@everyone"` is the
test `t = default_role`. -/
def reorder_roles (default_role : Handle) (rm : List (PyVal × Handle))
    (roles_data : List RoleData) : List MutCall :=
  roles_data.filterMap (fun r =>
    match dictGet rm ((r.id).getD PyVal.none) with
    | Option.none => Option.none
    | some t =>
      if t = default_role then Option.none
      else some (MutCall.editRolePosition t (safe_int ((r.position).getD PyVal.none) 0)))

/-- Translation of `Clone.roles_create` (src/main.py lines 208-274):
sort by position, run the creation loop starting from the current
`role_map`, then run the reposition pass over the same sorted list. -/
def roles_create (default_role : Handle) (role_map0 : List (PyVal × Handle))
    (roles_data : List RoleData) (res : Nat → Except Exn Handle) :
    List (PyVal × Handle) × PhaseStats × List MutCall :=
  let sorted := sortByKey rolePosKey roles_data
  let p := rolesCreateLoop default_role res sorted role_map0
  (p.1, ⟨p.2.1, roles_data.length, p.2.2.1⟩,
    p.2.2.2 ++ reorder_roles default_role p.1 sorted)

/-- Loop body of `Clone.categories_create` (src/main.py lines 325-348)
over the position-sorted category list.  Each item translates its
overwrites, issues `create_category`, and — only if creation
succeeded — edits the new category's position; the source id is
registered in `cat_map` only after BOTH calls succeed (the map
assignment on line 340 follows the edit on line 338 inside the same
`try`).  `except Forbidden` and `except HTTPException` count the error
and continue; an exception of any other class aborts the phase.
`(res i).1` is the creation outcome, `(res i).2` the position-edit
outcome for the i-th item. -/
def catsCreateLoop (role_map : List (PyVal × Handle))
    (bot_source_id : Option Int) (default_role : Handle)
    (res : Nat → Except Exn Handle × Except Exn Unit) :
    List ChanData → List (PyVal × Handle) →
      Except Exn (List (PyVal × Handle) × Nat × Nat × List MutCall)
  | [], cm => .ok (cm, 0, 0, [])
  | c :: rest, cm =>
    let name := (c.name).getD (PyVal.str "unnamed")
    let ows := parse_permission_overwrites role_map bot_source_id default_role
      ((c.permission_overwrites).getD [])
    match (res 0).1 with
    | .error .forbidden =>
      (catsCreateLoop role_map bot_source_id default_role
          (fun i => res (i + 1)) rest cm).map
        (fun p => (p.1, p.2.1 + 1, p.2.2.1 + 1,
          MutCall.createCategory name ows :: p.2.2.2))
    | .error .http =>
      (catsCreateLoop role_map bot_source_id default_role
          (fun i => res (i + 1)) rest cm).map
        (fun p => (p.1, p.2.1 + 1, p.2.2.1 + 1,
          MutCall.createCategory name ows :: p.2.2.2))
    | .error .other => .error .other
    | .ok h =>
      let pos := safe_int ((c.position).getD PyVal.none) 0
      match (res 0).2 with
      | .ok _ =>
        let cm' := dictSet cm ((c.id).getD PyVal.none) h
        (catsCreateLoop role_map bot_source_id default_role
            (fun i => res (i + 1)) rest cm').map
          (fun p => (p.1, p.2.1 + 1, p.2.2.1,
            MutCall.createCategory name ows ::
              MutCall.editCategoryPosition h pos :: p.2.2.2))
      | .error .forbidden =>
        (catsCreateLoop role_map bot_source_id default_role
            (fun i => res (i + 1)) rest cm).map
          (fun p => (p.1, p.2.1 + 1, p.2.2.1 + 1,
            MutCall.createCategory name ows ::
              MutCall.editCategoryPosition h pos :: p.2.2.2))
      | .error .http =>
        (catsCreateLoop role_map bot_source_id default_role
            (fun i => res (i + 1)) rest cm).map
          (fun p => (p.1, p.2.1 + 1, p.2.2.1 + 1,
            MutCall.createCategory name ows ::
              MutCall.editCategoryPosition h pos :: p.2.2.2))
      | .error .other => .error .other

/-- Translation of `Clone.categories_create` (src/main.py lines
313-350): filter to `type == 4`, sort by position, run the loop (the
early return on an empty list yields the same result). -/
def categories_create (role_map : List (PyVal × Handle))
    (bot_source_id : Option Int) (default_role : Handle)
    (cat_map0 : List (PyVal × Handle)) (channels_data : List ChanData)
    (res : Nat → Except Exn Handle × Except Exn Unit) :
    Except Exn (List (PyVal × Handle) × PhaseStats × List MutCall) :=
  let cats := catsOf channels_data
  (catsCreateLoop role_map bot_source_id default_role res cats cat_map0).map
    (fun p => (p.1, ⟨p.2.1, cats.length, p.2.2.1⟩, p.2.2.2))

/-- Loop body of `Clone.channels_create` (src/main.py lines 364-459)
over the position-sorted non-category list.  Each item resolves its
parent via `channelParentArg`, translates its overwrites (outside the
`try`, a total computation), dispatches one creation call on the
converted channel type (type 5 additionally attempts a news-type edit
whose failures are passed over), and registers the source id in
`chan_map` on creation success.  `except Forbidden`,
`except HTTPException` and `except Exception` catch every failure, so
this loop never aborts.  Result: (chan_map, completed, errors,
trace). -/
def chansCreateLoop (role_map cat_map : List (PyVal × Handle))
    (bot_source_id : Option Int) (default_role : Handle)
    (res : Nat → Except Exn Handle) :
    List ChanData → List (PyVal × Handle) →
      List (PyVal × Handle) × Nat × Nat × List MutCall
  | [], chm => (chm, 0, 0, [])
  | c :: rest, chm =>
    let name := (c.name).getD (PyVal.str "unnamed")
    let chan_type := safe_int ((c.type).getD PyVal.none) 0
    let category := channelParentArg cat_map c
    let ows := parse_permission_overwrites role_map bot_source_id default_role
      ((c.permission_overwrites).getD [])
    let pos := safe_int ((c.position).getD PyVal.none) 0
    match res 0 with
    | .ok h =>
      let chm' := dictSet chm ((c.id).getD PyVal.none) h
      let p := chansCreateLoop role_map cat_map bot_source_id default_role
        (fun i => res (i + 1)) rest chm'
      let tr :=
        if chan_type = 5 then
          MutCall.createChannel chan_type name category ows pos ::
            MutCall.editChannelTypeNews h :: p.2.2.2
        else
          MutCall.createChannel chan_type name category ows pos :: p.2.2.2
      (p.1, p.2.1 + 1, p.2.2.1, tr)
    | .error _ =>
      let p := chansCreateLoop role_map cat_map bot_source_id default_role
        (fun i => res (i + 1)) rest chm
      (p.1, p.2.1 + 1, p.2.2.1 + 1,
        MutCall.createChannel chan_type name category ows pos :: p.2.2.2)

/-- Translation of `Clone.channels_create` (src/main.py lines
352-461): filter to `type != 4`, sort by position, run the loop (the
early return on an empty list yields the same result). -/
def channels_create (role_map cat_map : List (PyVal × Handle))
    (bot_source_id : Option Int) (default_role : Handle)
    (chan_map0 : List (PyVal × Handle)) (channels_data : List ChanData)
    (res : Nat → Except Exn Handle) :
    List (PyVal × Handle) × PhaseStats × List MutCall :=
  let chans := chansOf channels_data
  let p := chansCreateLoop role_map cat_map bot_source_id default_role res
    chans chan_map0
  (p.1, ⟨p.2.1, chans.length, p.2.2.1⟩, p.2.2.2)

/-- Loop body of `Clone.emojis_create` (src/main.py lines 498-533).
An item without a truthy id logs an error and continues without any
call; otherwise the CDN fetch runs (`resF i`: `.ok true` = HTTP 200,
`.ok false` = other status — logged, no creation; `.error` = raised —
caught) and on a 200 the creation call runs (`resC i`), its failures
caught by `except Forbidden` / `except HTTPException` /
`except Exception`; the loop never aborts.  Result: (completed,
errors, trace). -/
def emojisCreateLoop (resF : Nat → Except Exn Bool)
    (resC : Nat → Except Exn Unit) :
    List EmojiData → Nat × Nat × List MutCall
  | [] => (0, 0, [])
  | e :: rest =>
    let name := (e.name).getD (PyVal.str "unnamed")
    let emoji_id := (e.id).getD PyVal.none
    if !(pyTruthy emoji_id) then
      let p := emojisCreateLoop (fun i => resF (i + 1)) (fun i => resC (i + 1)) rest
      (p.1 + 1, p.2.1 + 1, p.2.2)
    else
      match resF 0 with
      | .error _ =>
        let p := emojisCreateLoop (fun i => resF (i + 1)) (fun i => resC (i + 1)) rest
        (p.1 + 1, p.2.1 + 1, p.2.2)
      | .ok false =>
        let p := emojisCreateLoop (fun i => resF (i + 1)) (fun i => resC (i + 1)) rest
        (p.1 + 1, p.2.1 + 1, p.2.2)
      | .ok true =>
        match resC 0 with
        | .ok _ =>
          let p := emojisCreateLoop (fun i => resF (i + 1)) (fun i => resC (i + 1)) rest
          (p.1 + 1, p.2.1, MutCall.createEmoji name :: p.2.2)
        | .error _ =>
          let p := emojisCreateLoop (fun i => resF (i + 1)) (fun i => resC (i + 1)) rest
          (p.1 + 1, p.2.1 + 1, MutCall.createEmoji name :: p.2.2)

/-- Translation of `Clone.emojis_create` (src/main.py lines 487-535).
(The `e.text[:50]` in the HTTPException log line, which itself raises
when the exception carries no text, is a log-formatting detail outside
the model.) -/
def emojis_create (emojis_data : List EmojiData)
    (resF : Nat → Except Exn Bool) (resC : Nat → Except Exn Unit) :
    PhaseStats × List MutCall :=
  let p := emojisCreateLoop resF resC emojis_data
  (⟨p.1, emojis_data.length, p.2.1⟩, p.2.2)

/-- Translation of `Clone.guild_edit` (src/main.py lines 537-559).
The outer `try` catches only `discord.Forbidden`; a failure of any
other class on the name edit therefore propagates out of the phase.
The icon section sits in an inner `try` whose `except Exception`
catches everything (printing a warning without counting an error), and
a non-200 icon download is silently skipped.  Result on normal
completion: (errors, trace). -/
def guild_edit (g : GuildData) (name_res : Except Exn Unit)
    (icon_fetch : Except Exn Bool) (icon_edit : Except Exn Unit) :
    Except Exn (Nat × List MutCall) :=
  match name_res with
  | .error .forbidden => .ok (1, [MutCall.editGuildName])
  | .error .http => .error .http
  | .error .other => .error .other
  | .ok _ =>
    let icon_hash := (g.icon).getD PyVal.none
    if pyTruthy icon_hash then
      match icon_fetch with
      | .error _ => .ok (0, [MutCall.editGuildName])
      | .ok false => .ok (0, [MutCall.editGuildName])
      | .ok true =>
        match icon_edit with
        | .ok _ => .ok (0, [MutCall.editGuildName, MutCall.editGuildIcon])
        | .error _ => .ok (0, [MutCall.editGuildName, MutCall.editGuildIcon])
    else .ok (0, [MutCall.editGuildName])

/-- The live target guild handle returned by `check_target`: its
default role and the names of its existing roles, channels and emojis
(consumed by the wipe phases). -/
structure TargetGuild where
  default_role : Handle
  role_names : List String
  channel_names : List String
  emoji_names : List String
deriving DecidableEq

/-- Inputs of `CloneBot.check_target` (src/main.py lines 1058-1076):
whether a bot client exists, the stored target id (`if not
self.target_id` is a Python truthiness test, so id 0 also fails), the
result of `get_guild`, and the two permission flags of the bot member
in the target guild. -/
structure CTIn where
  hasClient : Bool
  target_id : Option Int
  guildFound : Option TargetGuild
  manage_channels : Bool
  manage_roles : Bool
deriving DecidableEq

/-- Translation of `CloneBot.check_target`: `None` (failure) unless a
client exists, a nonzero target id is set, the bot is in the target
guild, and it holds both `manage_channels` and `manage_roles`. -/
def check_target (c : CTIn) : Option TargetGuild :=
  if !c.hasClient then Option.none
  else if (match c.target_id with | Option.none => true | some n => n == 0) then
    Option.none
  else
    match c.guildFound with
    | Option.none => Option.none
    | some t =>
      if !c.manage_channels || !c.manage_roles then Option.none else some t

/-- The three remapper tables of the `CloneBot` object. -/
structure Maps where
  role_map : List (PyVal × Handle)
  cat_map : List (PyVal × Handle)
  chan_map : List (PyVal × Handle)
deriving DecidableEq

/-- Outcomes of every API call a full clone run can issue, indexed per
phase (and per item within a phase, in processing order). -/
structure FullCloneOracles where
  guild_name_res : Except Exn Unit
  icon_fetch_res : Except Exn Bool
  icon_edit_res : Except Exn Unit
  emoji_delete_res : Nat → Except Exn Unit
  channel_delete_res : Nat → Except Exn Unit
  role_delete_res : Nat → Except Exn Unit
  role_create_res : Nat → Except Exn Handle
  cat_create_res : Nat → Except Exn Handle × Except Exn Unit
  chan_create_res : Nat → Except Exn Handle
  emoji_fetch_res : Nat → Except Exn Bool
  emoji_create_res : Nat → Except Exn Unit

/-- Result of a completed phase sequence: the three remapper tables
and the ordered trace of mutating calls issued. -/
structure RunOut where
  maps : Maps
  trace : List MutCall

/-- The phase sequence of `CloneBot.do_full_clone` after all gates
have passed (src/main.py lines 1110-1141): guild settings, emoji /
channel / role wipe, role creation, category creation, channel
creation, emoji creation, with the remapper tables freshly reset to
empty before phase 1.  An exception escaping a phase propagates out of
the run. -/
def runPhases (snap : Snapshot) (g : GuildData) (t : TargetGuild)
    (bot_source_id : Option Int) (orc : FullCloneOracles) :
    Except Exn RunOut :=
  match guild_edit g orc.guild_name_res orc.icon_fetch_res orc.icon_edit_res with
  | .error e => .error e
  | .ok ge =>
    match emojis_delete t.emoji_names orc.emoji_delete_res with
    | .error e => .error e
    | .ok d1 =>
      match channels_delete t.channel_names orc.channel_delete_res with
      | .error e => .error e
      | .ok d2 =>
        match roles_delete t.role_names orc.role_delete_res with
        | .error e => .error e
        | .ok d3 =>
          let r5 := roles_create t.default_role [] snap.roles orc.role_create_res
          match categories_create r5.1 bot_source_id t.default_role []
              snap.channels orc.cat_create_res with
          | .error e => .error e
          | .ok c6 =>
            let c7 := channels_create r5.1 c6.1 bot_source_id t.default_role []
              snap.channels orc.chan_create_res
            let e8 := emojis_create snap.emojis orc.emoji_fetch_res
              orc.emoji_create_res
            .ok { maps := ⟨r5.1, c6.1, c7.1⟩,
                  trace := ge.2 ++ d1.2 ++ d2.2 ++ d3.2 ++ r5.2.2 ++ c6.2.2 ++
                    c7.2.2 ++ e8.2 }

/-- Translation of `CloneBot.do_full_clone` (src/main.py lines
1078-1145): returns untouched (no mutating call, remapper tables kept
as they were) unless scraped data exists, `check_target` passes, the
scraped guild field is a dict containing "name", and the confirmation
input is exactly the string "clone"; only then are the remapper tables
reset and the phases run. -/
def do_full_clone (scraped : Option Snapshot) (ct : CTIn)
    (bot_source_id : Option Int) (maps0 : Maps) (confirm : String)
    (orc : FullCloneOracles) : Except Exn (Maps × List MutCall) :=
  match scraped with
  | Option.none => .ok (maps0, [])
  | some snap =>
    match check_target ct with
    | Option.none => .ok (maps0, [])
    | some t =>
      match snap.guild with
      | GuildFetch.doc g =>
        if (g.name).isSome then
          if confirm == "clone" then
            match runPhases snap g t bot_source_id orc with
            | .error e => .error e
            | .ok r => .ok (r.maps, r.trace)
          else .ok (maps0, [])
        else .ok (maps0, [])
      | _ => .ok (maps0, [])

/-- Translation of `CloneBot.do_delete_roles` (src/main.py lines
1231-1248): nothing is deleted unless `check_target` passes and the
confirmation input is exactly "delete". -/
def do_delete_roles (ct : CTIn) (confirm : String)
    (res : Nat → Except Exn Unit) : Except Exn (List MutCall) :=
  match check_target ct with
  | Option.none => .ok []
  | some t =>
    if confirm == "delete" then
      (roles_delete t.role_names res).map (fun p => p.2)
    else .ok []

/-- Translation of `CloneBot.do_delete_channels` (src/main.py lines
1250-1267): nothing is deleted unless `check_target` passes and the
confirmation input is exactly "delete". -/
def do_delete_channels (ct : CTIn) (confirm : String)
    (res : Nat → Except Exn Unit) : Except Exn (List MutCall) :=
  match check_target ct with
  | Option.none => .ok []
  | some t =>
    if confirm == "delete" then
      (channels_delete t.channel_names res).map (fun p => p.2)
    else .ok []

/-- An oracle bundle where every API call succeeds. -/
def orcAllOk : FullCloneOracles :=
  ⟨.ok (), .ok true, .ok (), fun _ => .ok (), fun _ => .ok (),
    fun _ => .ok (), fun _ => .ok 0, fun _ => (.ok 0, .ok ()),
    fun _ => .ok 0, fun _ => .ok true, fun _ => .ok ()⟩

/-- A target-check input that passes every guard. -/
def ctOkPerms : CTIn := ⟨true, some 1, some ⟨0, [], [], []⟩, true, true⟩

/-- A target-check input failing only the `manage_roles` guard. -/
def ctNoManageRoles : CTIn := ⟨true, some 1, some ⟨0, [], [], []⟩, true, false⟩

/-- A minimal valid snapshot (guild dict with a name, empty lists). -/
def snapTrivial : Snapshot :=
  ⟨1, "t", GuildFetch.doc ⟨Option.none, some (PyVal.str "g"), Option.none⟩,
    [], [], []⟩

/-- Empty remapper tables. -/
def mapsEmpty : Maps := ⟨[], [], []⟩

/-- C7: a replication run performs no mutation unless the precondition
check passes.  `check_target` fails exactly when the bot client or a
nonzero target id is missing, the target guild is unreachable, or the
caller lacks `manage_channels` or `manage_roles`; `do_full_clone`
consults it once, before the confirmation prompt and before any phase,
and when it fails the run returns with an empty mutation trace and the
remapper tables untouched. -/
theorem precondition_gating :
    (∀ c : CTIn, check_target c = Option.none ↔
      (c.hasClient = false ∨ c.target_id = Option.none ∨
        c.target_id = some 0 ∨ c.guildFound = Option.none ∨
        c.manage_channels = false ∨ c.manage_roles = false)) ∧
    (∀ scraped ct bot_source_id maps0 confirm orc,
      check_target ct = Option.none →
      do_full_clone scraped ct bot_source_id maps0 confirm orc =
        .ok (maps0, [])) := by
  constructor
  · intro c
    obtain ⟨hc, tid, gf, mc, mr⟩ := c
    cases hc
    · simp [check_target]
    · cases tid with
      | none => simp [check_target]
      | some n =>
        by_cases hn : n = 0
        · subst hn; simp [check_target]
        · cases gf with
          | none => simp [check_target, hn]
          | some t =>
            cases mc <;> cases mr <;> simp [check_target, hn]
  · intro scraped ct sid maps0 confirm orc h
    cases scraped with
    | none => rfl
    | some snap =>
      simp only [do_full_clone]
      rw [h]

theorem precondition_gating_witness :
    check_target ctNoManageRoles = Option.none ∧
    do_full_clone (some snapTrivial) ctNoManageRoles (some 1) mapsEmpty
        "clone" orcAllOk = .ok (mapsEmpty, []) :=
  ⟨by decide,
    precondition_gating.2 (some snapTrivial) ctNoManageRoles (some 1)
      mapsEmpty "clone" orcAllOk (by decide)⟩

/-- C10: the destructive entry points are gated on an exact
confirmation string (the value returned by the input prompt, which the
entry points compare verbatim).  For any confirmation other than
"clone", `do_full_clone` returns with no mutating call issued and the
remapper tables untouched (the reset happens only after the
confirmation passes); for any confirmation other than "delete",
`do_delete_roles` and `do_delete_channels` return without issuing any
delete call. -/
theorem confirmation_gating (ct : CTIn) (confirm : String) :
    (∀ scraped bot_source_id maps0 orc, confirm ≠ "clone" →
      do_full_clone scraped ct bot_source_id maps0 confirm orc =
        .ok (maps0, [])) ∧
    (∀ res, confirm ≠ "delete" → do_delete_roles ct confirm res = .ok []) ∧
    (∀ res, confirm ≠ "delete" → do_delete_channels ct confirm res = .ok []) := by
  refine ⟨?_, ?_, ?_⟩
  · intro scraped sid maps0 orc h
    have hc : (confirm == "clone") = false := beq_eq_false_iff_ne.mpr h
    cases scraped with
    | none => rfl
    | some snap =>
      simp only [do_full_clone]
      cases hct : check_target ct with
      | none => rfl
      | some t =>
        cases hg : snap.guild with
        | doc g =>
          by_cases hn : (g.name).isSome
          · simp [hn, hc]
          · simp [hn]
        | nullv => rfl
        | err r s => rfl
  · intro res h
    have hc : (confirm == "delete") = false := beq_eq_false_iff_ne.mpr h
    simp only [do_delete_roles]
    cases hct : check_target ct with
    | none => rfl
    | some t => simp [hc]
  · intro res h
    have hc : (confirm == "delete") = false := beq_eq_false_iff_ne.mpr h
    simp only [do_delete_channels]
    cases hct : check_target ct with
    | none => rfl
    | some t => simp [hc]

theorem confirmation_gating_witness :
    do_full_clone (some snapTrivial) ctOkPerms (some 1) mapsEmpty "x"
        orcAllOk = .ok (mapsEmpty, []) ∧
    do_delete_roles ctOkPerms "x" (fun _ => .ok ()) = .ok [] ∧
    do_delete_channels ctOkPerms "x" (fun _ => .ok ()) = .ok [] :=
  ⟨(confirmation_gating ctOkPerms "x").1 (some snapTrivial) (some 1)
      mapsEmpty orcAllOk (by decide),
    (confirmation_gating ctOkPerms "x").2.1 (fun _ => .ok ()) (by decide),
    (confirmation_gating ctOkPerms "x").2.2 (fun _ => .ok ()) (by decide)⟩

theorem chansCreateLoop_parents (role_map cat_map : List (PyVal × Handle))
    (bot_source_id : Option Int) (default_role : Handle) :
    ∀ (items : List ChanData) (res : Nat → Except Exn Handle)
      (chm : List (PyVal × Handle)),
      traceParents (chansCreateLoop role_map cat_map bot_source_id default_role
          res items chm).2.2.2 =
        items.map (channelParentArg cat_map) := by
  intro items
  induction items with
  | nil => intro res chm; rfl
  | cons c rest ih =>
    intro res chm
    simp only [chansCreateLoop]
    cases res 0 with
    | ok h =>
      by_cases ht : safe_int ((c.type).getD PyVal.none) 0 = 5
      · simp [ht, traceParents, ih]
      · simp [ht, traceParents, ih]
    | error e => simp [traceParents, ih]

theorem chansCreateLoop_stats_indep (role_map : List (PyVal × Handle))
    (bot_source_id : Option Int) (default_role : Handle) :
    ∀ (items : List ChanData) (res : Nat → Except Exn Handle)
      (cat_map cat_map' chm : List (PyVal × Handle)),
      (chansCreateLoop role_map cat_map bot_source_id default_role res items
        chm).1 =
        (chansCreateLoop role_map cat_map' bot_source_id default_role res items
          chm).1 ∧
      (chansCreateLoop role_map cat_map bot_source_id default_role res items
        chm).2.1 =
        (chansCreateLoop role_map cat_map' bot_source_id default_role res items
          chm).2.1 ∧
      (chansCreateLoop role_map cat_map bot_source_id default_role res items
        chm).2.2.1 =
        (chansCreateLoop role_map cat_map' bot_source_id default_role res items
          chm).2.2.1 := by
  intro items
  induction items with
  | nil => intro res cm cm' chm; exact ⟨rfl, rfl, rfl⟩
  | cons c rest ih =>
    intro res cm cm' chm
    simp only [chansCreateLoop]
    cases res 0 with
    | ok h =>
      obtain ⟨h1, h2, h3⟩ := ih (fun i => res (i + 1)) cm cm'
        (dictSet chm ((c.id).getD PyVal.none) h)
      exact ⟨h1, by simp [h2], by simp [h3]⟩
    | error e =>
      obtain ⟨h1, h2, h3⟩ := ih (fun i => res (i + 1)) cm cm' chm
      exact ⟨h1, by simp [h2], by simp [h3]⟩

/-- C6 counterexample: the claim says a leaf whose `parent_id` has an
entry in the container remapper is created referencing that container.
The source computes `cat_map.get(parent_id) if parent_id else None`
(line 371), a Python truthiness test: for the falsy id `0`, which here
has an entry mapping it to handle 7, the creation call is issued with
no parent. -/
theorem leaf_falsy_parent_counterexample :
    dictGet [(PyVal.int 0, 7)] (PyVal.int 0) = some 7 ∧
    traceParents (channels_create [] [(PyVal.int 0, 7)] Option.none 4 []
        [⟨some (PyVal.str "10"), some (PyVal.int 0), some (PyVal.str "general"),
          some (PyVal.int 0), some (PyVal.int 0), some []⟩]
        (fun _ => Except.ok 9)).2.2 = [Option.none] :=
  ⟨by decide, by decide⟩

/-- C6 (amended): every leaf-creation call references exactly
`channelParentArg cat_map` for its item: the remapped container when
`parent_id` is truthy (non-null, nonzero, nonempty) and present in the
container remapper, and no parent otherwise — whether `parent_id` is
null, falsy, or simply unmapped.  The phase's counters (completed,
total, errors) and the resulting leaf remapper are independent of the
container remapper, so a missing parent reference never causes an
error for the leaf. -/
theorem leaf_parent_resolution :
    (∀ role_map cat_map bot_source_id default_role chan_map0 channels_data res,
      traceParents (channels_create role_map cat_map bot_source_id default_role
          chan_map0 channels_data res).2.2 =
        (chansOf channels_data).map (channelParentArg cat_map)) ∧
    (∀ cat_map c h, pyTruthy ((c.parent_id).getD PyVal.none) = true →
      dictGet cat_map ((c.parent_id).getD PyVal.none) = some h →
      channelParentArg cat_map c = some h) ∧
    (∀ cat_map c,
      (pyTruthy ((c.parent_id).getD PyVal.none) = false ∨
        dictGet cat_map ((c.parent_id).getD PyVal.none) = Option.none) →
      channelParentArg cat_map c = Option.none) ∧
    (∀ role_map cat_map cat_map' bot_source_id default_role chan_map0
        channels_data res,
      (channels_create role_map cat_map bot_source_id default_role chan_map0
        channels_data res).1 =
        (channels_create role_map cat_map' bot_source_id default_role chan_map0
          channels_data res).1 ∧
      (channels_create role_map cat_map bot_source_id default_role chan_map0
        channels_data res).2.1 =
        (channels_create role_map cat_map' bot_source_id default_role chan_map0
          channels_data res).2.1) := by
  refine ⟨?_, ?_, ?_, ?_⟩
  · intro role_map cat_map sid dr chm0 data res
    exact chansCreateLoop_parents role_map cat_map sid dr (chansOf data) res chm0
  · intro cat_map c h ht hg
    simp [channelParentArg, ht, hg]
  · intro cat_map c hd
    cases hd with
    | inl ht => simp [channelParentArg, ht]
    | inr hg => simp [channelParentArg, hg]
  · intro role_map cm cm' sid dr chm0 data res
    obtain ⟨h1, h2, h3⟩ := chansCreateLoop_stats_indep role_map sid dr
      (chansOf data) res cm cm' chm0
    exact ⟨h1, by simp [channels_create, h2, h3]⟩

theorem leaf_parent_resolution_witness :
    channelParentArg [(PyVal.str "5", 3)]
        ⟨Option.none, Option.none, Option.none, Option.none,
          some (PyVal.str "5"), Option.none⟩ = some 3 :=
  leaf_parent_resolution.2.1 [(PyVal.str "5", 3)]
    ⟨Option.none, Option.none, Option.none, Option.none,
      some (PyVal.str "5"), Option.none⟩ 3 (by decide) (by decide)

/-- Number of failures among the first `n` outcomes of an oracle,
peeled from the front the way the loops consume it. -/
def countErrs (res : Nat → Except Exn Unit) : Nat → Nat
  | 0 => 0
  | n + 1 =>
    (if exOk (res 0) = true then 0 else 1) +
      countErrs (fun i => res (i + 1)) n

theorem delete_loop_ok (mk : String → MutCall) :
    ∀ (names : List String) (res : Nat → Except Exn Unit),
      (∀ i, i < names.length → res i ≠ .error Exn.other) →
      ∃ tr, delete_loop mk res names =
        .ok (names.length, countErrs res names.length, tr) := by
  intro names
  induction names with
  | nil => intro res h; exact ⟨[], rfl⟩
  | cons n rest ih =>
    intro res h
    obtain ⟨tr, htr⟩ := ih (fun i => res (i + 1))
      (fun i hi => h (i + 1) (by simpa using Nat.succ_lt_succ hi))
    cases hres : res 0 with
    | ok u =>
      refine ⟨mk n :: tr, ?_⟩
      simp [delete_loop, hres, htr, Except.map, countErrs, exOk]
    | error e =>
      have hne := h 0 (by simp)
      cases e with
      | forbidden =>
        refine ⟨mk n :: tr, ?_⟩
        simp [delete_loop, hres, htr, Except.map, countErrs, exOk,
          Nat.add_comm]
      | http =>
        refine ⟨mk n :: tr, ?_⟩
        simp [delete_loop, hres, htr, Except.map, countErrs, exOk,
          Nat.add_comm]
      | other => exact absurd hres hne

theorem rolesCreateLoop_completed (default_role : Handle) :
    ∀ (items : List RoleData) (res : Nat → Except Exn Handle)
      (rm : List (PyVal × Handle)),
      (rolesCreateLoop default_role res items rm).2.1 = items.length := by
  intro items
  induction items with
  | nil => intro res rm; rfl
  | cons r rest ih =>
    intro res rm
    simp only [rolesCreateLoop]
    by_cases he : pyEq ((r.name).getD (PyVal.str "unnamed"))
        (PyVal.str "@everyone") = true
    · rw [if_pos he]
      cases hres : res 0 <;> simp [ih]
    · rw [if_neg he]
      cases hres : res 0 <;> simp [ih]

theorem catsCreateLoop_ok (role_map : List (PyVal × Handle))
    (bot_source_id : Option Int) (default_role : Handle) :
    ∀ (items : List ChanData) (res : Nat → Except Exn Handle × Except Exn Unit)
      (cm : List (PyVal × Handle)),
      (∀ i, i < items.length →
        (res i).1 ≠ .error Exn.other ∧ (res i).2 ≠ .error Exn.other) →
      ∃ cm' errs tr,
        catsCreateLoop role_map bot_source_id default_role res items cm =
          .ok (cm', items.length, errs, tr) := by
  intro items
  induction items with
  | nil => intro res cm h; exact ⟨cm, 0, [], rfl⟩
  | cons c rest ih =>
    intro res cm h
    have hsh : ∀ i, i < rest.length →
        ((fun i => res (i + 1)) i).1 ≠ .error Exn.other ∧
        ((fun i => res (i + 1)) i).2 ≠ .error Exn.other :=
      fun i hi => h (i + 1) (by simpa using Nat.succ_lt_succ hi)
    cases h1 : (res 0).1 with
    | error e =>
      cases e with
      | forbidden =>
        obtain ⟨cm', errs, tr, htr⟩ := ih (fun i => res (i + 1)) cm hsh
        refine ⟨cm', errs + 1,
          MutCall.createCategory ((c.name).getD (PyVal.str "unnamed"))
            (parse_permission_overwrites role_map bot_source_id default_role
              ((c.permission_overwrites).getD [])) :: tr, ?_⟩
        simp [catsCreateLoop, h1, htr, Except.map]
      | http =>
        obtain ⟨cm', errs, tr, htr⟩ := ih (fun i => res (i + 1)) cm hsh
        refine ⟨cm', errs + 1,
          MutCall.createCategory ((c.name).getD (PyVal.str "unnamed"))
            (parse_permission_overwrites role_map bot_source_id default_role
              ((c.permission_overwrites).getD [])) :: tr, ?_⟩
        simp [catsCreateLoop, h1, htr, Except.map]
      | other => exact absurd h1 (h 0 (by simp)).1
    | ok hh =>
      cases h2 : (res 0).2 with
      | ok u =>
        obtain ⟨cm', errs, tr, htr⟩ := ih (fun i => res (i + 1))
          (dictSet cm ((c.id).getD PyVal.none) hh) hsh
        refine ⟨cm', errs,
          MutCall.createCategory ((c.name).getD (PyVal.str "unnamed"))
            (parse_permission_overwrites role_map bot_source_id default_role
              ((c.permission_overwrites).getD [])) ::
            MutCall.editCategoryPosition hh
              (safe_int ((c.position).getD PyVal.none) 0) :: tr, ?_⟩
        simp [catsCreateLoop, h1, h2, htr, Except.map]
      | error e =>
        cases e with
        | forbidden =>
          obtain ⟨cm', errs, tr, htr⟩ := ih (fun i => res (i + 1)) cm hsh
          refine ⟨cm', errs + 1,
            MutCall.createCategory ((c.name).getD (PyVal.str "unnamed"))
              (parse_permission_overwrites role_map bot_source_id default_role
                ((c.permission_overwrites).getD [])) ::
              MutCall.editCategoryPosition hh
                (safe_int ((c.position).getD PyVal.none) 0) :: tr, ?_⟩
          simp [catsCreateLoop, h1, h2, htr, Except.map]
        | http =>
          obtain ⟨cm', errs, tr, htr⟩ := ih (fun i => res (i + 1)) cm hsh
          refine ⟨cm', errs + 1,
            MutCall.createCategory ((c.name).getD (PyVal.str "unnamed"))
              (parse_permission_overwrites role_map bot_source_id default_role
                ((c.permission_overwrites).getD [])) ::
              MutCall.editCategoryPosition hh
                (safe_int ((c.position).getD PyVal.none) 0) :: tr, ?_⟩
          simp [catsCreateLoop, h1, h2, htr, Except.map]
        | other => exact absurd h2 (h 0 (by simp)).2

theorem chansCreateLoop_completed (role_map cat_map : List (PyVal × Handle))
    (bot_source_id : Option Int) (default_role : Handle) :
    ∀ (items : List ChanData) (res : Nat → Except Exn Handle)
      (chm : List (PyVal × Handle)),
      (chansCreateLoop role_map cat_map bot_source_id default_role res items
        chm).2.1 = items.length := by
  intro items
  induction items with
  | nil => intro res chm; rfl
  | cons c rest ih =>
    intro res chm
    simp only [chansCreateLoop]
    cases hres : res 0 <;> simp [ih]

theorem emojisCreateLoop_completed :
    ∀ (items : List EmojiData) (resF : Nat → Except Exn Bool)
      (resC : Nat → Except Exn Unit),
      (emojisCreateLoop resF resC items).1 = items.length := by
  intro items
  induction items with
  | nil => intro resF resC; rfl
  | cons e rest ih =>
    intro resF resC
    simp only [emojisCreateLoop]
    by_cases hid : pyTruthy ((e.id).getD PyVal.none) = true
    · simp only [hid]
      cases hf : resF 0 with
      | ok b =>
        cases b
        · simp [ih]
        · cases hc : resC 0 <;> simp [ih]
      | error ex => simp [ih]
    · simp only [Bool.not_eq_true] at hid
      simp [hid, ih]

/-- C2 counterexample: the claim says any failure while processing a
phase item is caught at the item boundary and never escapes.  The
settings phase (`Clone.guild_edit`, lines 537-559) guards its body
with `except discord.Forbidden` only: an `HTTPException` raised by the
guild name edit propagates out of the phase (and, since
`do_full_clone` does not catch it either, out of the whole
pipeline). -/
theorem phase_item_escape_counterexample :
    guild_edit ⟨Option.none, some (PyVal.str "g"), Option.none⟩
        (Except.error Exn.http) (Except.ok false) (Except.ok ()) =
      Except.error Exn.http := rfl

/-- C2 (amended): per-item failures of class `Forbidden` or
`HTTPException` are caught at the item boundary in every phase loop,
counted, and the loop continues to the next item; the creation loops
for roles, channels and emojis catch failures of any class, so they
always process every item.  However, a failure of any other class
escapes the three delete loops and the category-creation loop, and any
non-Forbidden failure of the guild name edit escapes the settings
phase; apart from these escapes, the pipeline aborts only through the
up-front precondition check.  Conjuncts: the settings phase completes
whenever the name edit succeeds or fails with Forbidden (counting the
error); each delete loop, when no outcome is of an unhandled class,
completes all items with the failures exactly counted; the role,
channel and emoji creation loops complete all items unconditionally;
the category loop, when no outcome is of an unhandled class, completes
all items. -/
theorem phase_failure_handling :
    (∀ (g : GuildData) (i1 : Except Exn Bool) (i2 : Except Exn Unit),
      exOk (guild_edit g (Except.ok ()) i1 i2) = true ∧
      guild_edit g (Except.error Exn.forbidden) i1 i2 =
        .ok (1, [MutCall.editGuildName])) ∧
    (∀ (mk : String → MutCall) (names : List String)
        (res : Nat → Except Exn Unit),
      (∀ i, i < names.length → res i ≠ .error Exn.other) →
      ∃ tr, delete_loop mk res names =
        .ok (names.length, countErrs res names.length, tr)) ∧
    (∀ default_role role_map0 roles_data res,
      (roles_create default_role role_map0 roles_data res).2.1.completed =
        roles_data.length) ∧
    (∀ role_map bot_source_id default_role cat_map0 channels_data res,
      (∀ i, i < (catsOf channels_data).length →
        (res i).1 ≠ .error Exn.other ∧ (res i).2 ≠ .error Exn.other) →
      ∃ cm errs tr,
        categories_create role_map bot_source_id default_role cat_map0
          channels_data res =
          .ok (cm, ⟨(catsOf channels_data).length,
            (catsOf channels_data).length, errs⟩, tr)) ∧
    (∀ role_map cat_map bot_source_id default_role chan_map0 channels_data res,
      (channels_create role_map cat_map bot_source_id default_role chan_map0
        channels_data res).2.1.completed = (chansOf channels_data).length) ∧
    (∀ emojis_data resF resC,
      (emojis_create emojis_data resF resC).1.completed =
        emojis_data.length) := by
  refine ⟨?_, delete_loop_ok, ?_, ?_, ?_, ?_⟩
  · intro g i1 i2
    constructor
    · simp only [guild_edit]
      by_cases hic : pyTruthy ((g.icon).getD PyVal.none) = true
      · simp only [hic, if_true]
        cases i1 with
        | error e => rfl
        | ok b =>
          cases b
          · rfl
          · cases i2 with
            | ok u => rfl
            | error e => rfl
      · simp only [Bool.not_eq_true] at hic
        simp [hic, exOk]
    · rfl
  · intro dr rm0 data res
    simp [roles_create, rolesCreateLoop_completed, length_sortByKey]
  · intro rm sid dr cm0 data res h
    obtain ⟨cm', errs, tr, htr⟩ :=
      catsCreateLoop_ok rm sid dr (catsOf data) res cm0 h
    exact ⟨cm', errs, tr, by simp [categories_create, htr, Except.map]⟩
  · intro rm cm sid dr chm0 data res
    simp [channels_create, chansCreateLoop_completed]
  · intro data resF resC
    simp [emojis_create, emojisCreateLoop_completed]

theorem phase_failure_handling_witness :
    ∃ tr, delete_loop MutCall.deleteRole
        (fun i => if i = 0 then Except.error Exn.forbidden else Except.ok ())
        ["a", "b"] = Except.ok (2, 1, tr) := by
  obtain ⟨tr, htr⟩ := phase_failure_handling.2.1 MutCall.deleteRole ["a", "b"]
    (fun i => if i = 0 then Except.error Exn.forbidden else Except.ok ())
    (by
      intro i hi
      cases i with
      | zero => simp
      | succ j => simp)
  exact ⟨tr, htr⟩

theorem pyEq_comm (a b : PyVal) : pyEq a b = pyEq b a := by
  cases h : pyEq a b with
  | true => exact (pyEq_symm h).symm
  | false =>
    cases h' : pyEq b a with
    | true => exact absurd (pyEq_symm h') (by simp [h])
    | false => rfl

theorem dictGet_isSome_dictSet2 (d : List (PyVal × Handle)) (k q : PyVal)
    (v : Handle) :
    (dictGet (dictSet d k v) q).isSome =
      (pyEq k q || (dictGet d q).isSome) := by
  rw [dictGet_isSome_dictSet, pyEq_comm]

theorem exists_lt_succ_shift (n : Nat) (Q : Nat → Prop) :
    (∃ i, i < n + 1 ∧ Q i) ↔ (Q 0 ∨ ∃ i, i < n ∧ Q (i + 1)) := by
  constructor
  · rintro ⟨i, hi, hq⟩
    cases i with
    | zero => exact Or.inl hq
    | succ j => exact Or.inr ⟨j, by omega, hq⟩
  · rintro (h | ⟨i, hi, hq⟩)
    · exact ⟨0, by omega, h⟩
    · exact ⟨i + 1, by omega, hq⟩

/-- Placeholder records used only as `List.getD` defaults in index
characterizations (never at an in-range index). -/
def roleDefault : RoleData := ⟨Option.none, Option.none, Option.none⟩

def chanDefault : ChanData :=
  ⟨Option.none, Option.none, Option.none, Option.none, Option.none, Option.none⟩

theorem rolesCreateLoop_map (default_role : Handle) :
    ∀ (items : List RoleData) (res : Nat → Except Exn Handle)
      (rm : List (PyVal × Handle)) (k : PyVal),
      (dictGet (rolesCreateLoop default_role res items rm).1 k).isSome = true ↔
        ((dictGet rm k).isSome = true ∨
          ∃ i, i < items.length ∧
            pyEq (((items.getD i roleDefault).id).getD PyVal.none) k = true ∧
            exOk (res i) = true) := by
  intro items
  induction items with
  | nil => intro res rm k; simp [rolesCreateLoop]
  | cons r rest ih =>
    intro res rm k
    simp only [rolesCreateLoop]
    by_cases he : pyEq ((r.name).getD (PyVal.str "unnamed"))
        (PyVal.str "@everyone") = true
    · rw [if_pos he]
      cases hres : res 0 with
      | ok hh =>
        simp only [ih, dictGet_isSome_dictSet2, Bool.or_eq_true,
          List.length_cons, exists_lt_succ_shift, List.getD_cons_zero,
          List.getD_cons_succ, hres, exOk]
        tauto
      | error e =>
        simp only [ih, List.length_cons, exists_lt_succ_shift,
          List.getD_cons_zero, List.getD_cons_succ, hres, exOk]
        tauto
    · rw [if_neg he]
      cases hres : res 0 with
      | ok hh =>
        simp only [ih, dictGet_isSome_dictSet2, Bool.or_eq_true,
          List.length_cons, exists_lt_succ_shift, List.getD_cons_zero,
          List.getD_cons_succ, hres, exOk]
        tauto
      | error e =>
        simp only [ih, List.length_cons, exists_lt_succ_shift,
          List.getD_cons_zero, List.getD_cons_succ, hres, exOk]
        tauto

theorem chansCreateLoop_map (role_map cat_map : List (PyVal × Handle))
    (bot_source_id : Option Int) (default_role : Handle) :
    ∀ (items : List ChanData) (res : Nat → Except Exn Handle)
      (chm : List (PyVal × Handle)) (k : PyVal),
      (dictGet (chansCreateLoop role_map cat_map bot_source_id default_role
          res items chm).1 k).isSome = true ↔
        ((dictGet chm k).isSome = true ∨
          ∃ i, i < items.length ∧
            pyEq (((items.getD i chanDefault).id).getD PyVal.none) k = true ∧
            exOk (res i) = true) := by
  intro items
  induction items with
  | nil => intro res chm k; simp [chansCreateLoop]
  | cons c rest ih =>
    intro res chm k
    simp only [chansCreateLoop]
    cases hres : res 0 with
    | ok hh =>
      simp only [ih, dictGet_isSome_dictSet2, Bool.or_eq_true,
        List.length_cons, exists_lt_succ_shift, List.getD_cons_zero,
        List.getD_cons_succ, hres, exOk]
      tauto
    | error e =>
      simp only [ih, List.length_cons, exists_lt_succ_shift,
        List.getD_cons_zero, List.getD_cons_succ, hres, exOk]
      tauto

theorem catsCreateLoop_map (role_map : List (PyVal × Handle))
    (bot_source_id : Option Int) (default_role : Handle) :
    ∀ (items : List ChanData) (res : Nat → Except Exn Handle × Except Exn Unit)
      (cm : List (PyVal × Handle))
      (p : List (PyVal × Handle) × Nat × Nat × List MutCall),
      catsCreateLoop role_map bot_source_id default_role res items cm =
        .ok p →
      ∀ k, (dictGet p.1 k).isSome = true ↔
        ((dictGet cm k).isSome = true ∨
          ∃ i, i < items.length ∧
            pyEq (((items.getD i chanDefault).id).getD PyVal.none) k = true ∧
            exOk (res i).1 = true ∧ exOk (res i).2 = true) := by
  intro items
  induction items with
  | nil =>
    intro res cm p h k
    simp only [catsCreateLoop] at h
    rw [Except.ok.injEq] at h
    subst h
    simp
  | cons c rest ih =>
    intro res cm p h k
    simp only [catsCreateLoop] at h
    split at h
    · rename_i h1
      cases hrec : catsCreateLoop role_map bot_source_id default_role
          (fun i => res (i + 1)) rest cm with
      | error e2 => rw [hrec] at h; simp [Except.map] at h
      | ok q =>
        rw [hrec] at h
        simp only [Except.map, Except.ok.injEq] at h
        subst h
        simp only [ih (fun i => res (i + 1)) cm q hrec k, List.length_cons,
          exists_lt_succ_shift, List.getD_cons_zero, List.getD_cons_succ,
          h1, exOk]
        tauto
    · rename_i h1
      cases hrec : catsCreateLoop role_map bot_source_id default_role
          (fun i => res (i + 1)) rest cm with
      | error e2 => rw [hrec] at h; simp [Except.map] at h
      | ok q =>
        rw [hrec] at h
        simp only [Except.map, Except.ok.injEq] at h
        subst h
        simp only [ih (fun i => res (i + 1)) cm q hrec k, List.length_cons,
          exists_lt_succ_shift, List.getD_cons_zero, List.getD_cons_succ,
          h1, exOk]
        tauto
    · simp at h
    · rename_i hh h1
      split at h
      · rename_i u h2
        cases hrec : catsCreateLoop role_map bot_source_id default_role
            (fun i => res (i + 1)) rest
            (dictSet cm ((c.id).getD PyVal.none) hh) with
        | error e2 => rw [hrec] at h; simp [Except.map] at h
        | ok q =>
          rw [hrec] at h
          simp only [Except.map, Except.ok.injEq] at h
          subst h
          simp only [ih (fun i => res (i + 1))
              (dictSet cm ((c.id).getD PyVal.none) hh) q hrec k,
            dictGet_isSome_dictSet2, Bool.or_eq_true, List.length_cons,
            exists_lt_succ_shift, List.getD_cons_zero, List.getD_cons_succ,
            h1, h2, exOk]
          tauto
      · rename_i h2
        cases hrec : catsCreateLoop role_map bot_source_id default_role
            (fun i => res (i + 1)) rest cm with
        | error e2 => rw [hrec] at h; simp [Except.map] at h
        | ok q =>
          rw [hrec] at h
          simp only [Except.map, Except.ok.injEq] at h
          subst h
          simp only [ih (fun i => res (i + 1)) cm q hrec k, List.length_cons,
            exists_lt_succ_shift, List.getD_cons_zero, List.getD_cons_succ,
            h1, h2, exOk]
          tauto
      · rename_i h2
        cases hrec : catsCreateLoop role_map bot_source_id default_role
            (fun i => res (i + 1)) rest cm with
        | error e2 => rw [hrec] at h; simp [Except.map] at h
        | ok q =>
          rw [hrec] at h
          simp only [Except.map, Except.ok.injEq] at h
          subst h
          simp only [ih (fun i => res (i + 1)) cm q hrec k, List.length_cons,
            exists_lt_succ_shift, List.getD_cons_zero, List.getD_cons_succ,
            h1, h2, exOk]
          tauto
      · simp at h

/-- C1 counterexample: the claim says the container remapper gains an
entry for exactly those source ids whose creation call returned
success.  Here the creation call for category id "10" succeeds (the
oracle returns handle 5 and the trace shows both the creation and the
position edit were issued), but the position edit that
`categories_create` performs before the `cat_map` assignment (lines
336-340) fails with a handled HTTPException — so the run completes
with the error counted and `cat_map` left EMPTY despite the successful
creation. -/
theorem category_unregistered_counterexample :
    categories_create [] Option.none 4 []
        [⟨some (PyVal.str "10"), some (PyVal.int 4), some (PyVal.str "cat"),
          some (PyVal.int 0), Option.none, some []⟩]
        (fun _ => (Except.ok 5, Except.error Exn.http)) =
      Except.ok ([], ⟨1, 1, 1⟩,
        [MutCall.createCategory (PyVal.str "cat") [],
          MutCall.editCategoryPosition 5 0]) := rfl

/-- C1 (amended): after a completed full clone run each remapper holds
no placeholder entries (values are exactly the returned target
handles) and contains exactly: for groups, the source ids of the
sorted role items whose single per-item call succeeded (the default
group via its in-place permission edit, all others via `create_role`);
for leaves, the ids whose creation call succeeded; for containers, the
ids for which BOTH the creation call and the immediately following
position edit succeeded — a container whose creation succeeded but
whose position edit failed with a handled error is not registered. -/
theorem remapper_contents (snap : Snapshot) (g : GuildData) (t : TargetGuild)
    (bot_source_id : Option Int) (orc : FullCloneOracles) (out : RunOut)
    (h : runPhases snap g t bot_source_id orc = .ok out) :
    (∀ k, (dictGet out.maps.role_map k).isSome = true ↔
      ∃ i, i < (sortByKey rolePosKey snap.roles).length ∧
        pyEq ((((sortByKey rolePosKey snap.roles).getD i roleDefault).id).getD
          PyVal.none) k = true ∧
        exOk (orc.role_create_res i) = true) ∧
    (∀ k, (dictGet out.maps.cat_map k).isSome = true ↔
      ∃ i, i < (catsOf snap.channels).length ∧
        pyEq ((((catsOf snap.channels).getD i chanDefault).id).getD
          PyVal.none) k = true ∧
        exOk (orc.cat_create_res i).1 = true ∧
        exOk (orc.cat_create_res i).2 = true) ∧
    (∀ k, (dictGet out.maps.chan_map k).isSome = true ↔
      ∃ i, i < (chansOf snap.channels).length ∧
        pyEq ((((chansOf snap.channels).getD i chanDefault).id).getD
          PyVal.none) k = true ∧
        exOk (orc.chan_create_res i) = true) := by
  simp only [runPhases] at h
  split at h
  · simp at h
  · split at h
    · simp at h
    · split at h
      · simp at h
      · split at h
        · simp at h
        · split at h
          · simp at h
          · rename_i c6 hc6
            rw [Except.ok.injEq] at h
            subst h
            refine ⟨?_, ?_, ?_⟩
            · intro k
              simp [roles_create, rolesCreateLoop_map, dictGet]
            · intro k
              simp only [categories_create] at hc6
              cases hcl : catsCreateLoop
                  (roles_create t.default_role [] snap.roles
                    orc.role_create_res).1 bot_source_id t.default_role
                  orc.cat_create_res (catsOf snap.channels) [] with
              | error e =>
                rw [hcl] at hc6
                simp [Except.map] at hc6
              | ok q =>
                rw [hcl] at hc6
                simp only [Except.map, Except.ok.injEq] at hc6
                subst hc6
                have hq := catsCreateLoop_map
                  (roles_create t.default_role [] snap.roles
                    orc.role_create_res).1 bot_source_id t.default_role
                  (catsOf snap.channels) orc.cat_create_res [] q hcl k
                simpa [dictGet] using hq
            · intro k
              simp [channels_create, chansCreateLoop_map, dictGet]

def gX : GuildData := ⟨Option.none, some (PyVal.str "g"), Option.none⟩

def snapOneRole : Snapshot :=
  ⟨1, "t", GuildFetch.doc gX, [],
    [⟨some (PyVal.str "7"), some (PyVal.str "r"), some (PyVal.int 0)⟩], []⟩

def tgX : TargetGuild := ⟨0, [], [], []⟩

def outOneRole : RunOut :=
  ⟨⟨[(PyVal.str "7", 0)], [], []⟩,
    [MutCall.editGuildName, MutCall.createRole (PyVal.str "r")]⟩

theorem remapper_contents_witness :
    ∃ i, i < (sortByKey rolePosKey snapOneRole.roles).length ∧
      pyEq ((((sortByKey rolePosKey snapOneRole.roles).getD i
        roleDefault).id).getD PyVal.none) (PyVal.str "7") = true ∧
      exOk (orcAllOk.role_create_res i) = true :=
  ((remapper_contents snapOneRole gX tgX (some 1) orcAllOk outOneRole rfl).1
    (PyVal.str "7")).mp (by decide)
